import Mathlib

/-!
Verification of the generative-model code in `models/AE.py` and
`models/WGANGP.py` (convolutional autoencoder and WGAN-GP).

Tensors are shallowly embedded: a 1-D tensor is a `List ℚ` (or `List ℝ`
where square roots or exponentials appear), a per-sample 3-D image tensor is
a `List (List (List ℚ))` (height × width × channels), and a batch is a list
of samples.  Layer stacks are embedded symbolically as lists of layer
descriptors, and the training loop of `WGANGP.train` as a trace of critic /
generator optimization events.
-/

/-- `K.mean` of a 1-D tensor of rationals: sum divided by length
(`0` on the empty list, which never arises for a real batch). -/
def WGANGP.kMean (l : List ℚ) : ℚ := l.sum / l.length

/-- `WGANGP.wasserstein(y_true, y_pred) = -K.mean(y_true * y_pred)`
(WGANGP.py lines 75-76); the elementwise product of two equally-shaped
tensors is `List.zipWith (· * ·)`. -/
def WGANGP.wasserstein (y_true y_pred : List ℚ) : ℚ :=
  -(WGANGP.kMean (List.zipWith (· * ·) y_true y_pred))

/-- The label tensor `valid = np.ones((batch_size, 1))` used by
`WGANGP.train_critic` (line 191), flattened. -/
def WGANGP.validLabels (batch_size : Nat) : List ℚ := List.replicate batch_size 1

/-- The label tensor `fake = -np.ones((batch_size, 1))` used by
`WGANGP.train_critic` (line 192), flattened. -/
def WGANGP.fakeLabels (batch_size : Nat) : List ℚ := List.replicate batch_size (-1)

lemma zipWith_replicate_one_mul (l : List ℚ) :
    List.zipWith (· * ·) (List.replicate l.length 1) l = l := by
  induction l with
  | nil => rfl
  | cons x xs ih => simp [List.replicate_succ, ih]

lemma zipWith_replicate_negone_mul (l : List ℚ) :
    List.zipWith (· * ·) (List.replicate l.length (-1)) l = l.map (fun x => -x) := by
  induction l with
  | nil => rfl
  | cons x xs ih => simp [List.replicate_succ, ih]

lemma list_sum_map_neg (l : List ℚ) : (l.map (fun x => -x)).sum = -l.sum := by
  induction l with
  | nil => simp
  | cons x xs ih => simp [ih]; ring

lemma kMean_map_neg (l : List ℚ) : WGANGP.kMean (l.map (fun x => -x)) = -WGANGP.kMean l := by
  simp [WGANGP.kMean, list_sum_map_neg, neg_div]

/-- C4: `wasserstein` is the negated mean of the elementwise product, and
with the all-ones / all-minus-ones label tensors of `train_critic` the
summed real-head and fake-head critic losses equal
`mean(fake scores) - mean(real scores)`. -/
theorem wasserstein_spec (y_true y_pred real_scores fake_scores : List ℚ) (n : Nat)
    (hr : real_scores.length = n) (hf : fake_scores.length = n) :
    WGANGP.wasserstein y_true y_pred
        = -(WGANGP.kMean (List.zipWith (· * ·) y_true y_pred)) ∧
    WGANGP.wasserstein (WGANGP.validLabels n) real_scores
        + WGANGP.wasserstein (WGANGP.fakeLabels n) fake_scores
      = WGANGP.kMean fake_scores - WGANGP.kMean real_scores := by
  refine ⟨rfl, ?_⟩
  subst hr
  unfold WGANGP.wasserstein WGANGP.validLabels WGANGP.fakeLabels
  rw [zipWith_replicate_one_mul, ← hf, zipWith_replicate_negone_mul, kMean_map_neg]
  ring

/-- Witness for C4 at concrete score vectors. -/
theorem wasserstein_spec_witness :
    ([(2 : ℚ)].length = 1) ∧ ([(3 : ℚ)].length = 1) ∧
    (WGANGP.wasserstein [(1 : ℚ)] [(2 : ℚ)]
        = -(WGANGP.kMean (List.zipWith (· * ·) [(1 : ℚ)] [(2 : ℚ)])) ∧
     WGANGP.wasserstein (WGANGP.validLabels 1) [(2 : ℚ)]
        + WGANGP.wasserstein (WGANGP.fakeLabels 1) [(3 : ℚ)]
      = WGANGP.kMean [(3 : ℚ)] - WGANGP.kMean [(2 : ℚ)]) :=
  ⟨rfl, rfl, wasserstein_spec [1] [2] [2] [3] 1 rfl rfl⟩

/-- `step_decay_schedule` from AE.py lines 29-32: the returned schedule maps
`epoch` to `initial_lr * (decay_factor ** (epoch // step_size))`. -/
def step_decay_schedule (initial_lr decay_factor : ℚ) (step_size : Nat) : Nat → ℚ :=
  fun epoch => initial_lr * decay_factor ^ (epoch / step_size)

/-- The learning-rate schedule installed by `Autoencoder.train`
(AE.py line 178): `step_decay_schedule(initial_lr=self.learning_rate,
decay_factor=lr_decay, step_size=1)`. -/
def Autoencoder.train_lr_sched (learning_rate lr_decay : ℚ) : Nat → ℚ :=
  step_decay_schedule learning_rate lr_decay 1

/-- C10: the schedule equals `initial_lr * decay_factor ^ (epoch // step_size)`
for every epoch, and under `Autoencoder.train`'s default `lr_decay = 1`
(passed as `decay_factor` with `step_size = 1`) the learning rate is constant. -/
theorem step_decay_schedule_spec (initial_lr decay_factor : ℚ) (step_size : Nat) :
    (∀ epoch : Nat,
        step_decay_schedule initial_lr decay_factor step_size epoch
          = initial_lr * decay_factor ^ (epoch / step_size)) ∧
    (∀ epoch : Nat, Autoencoder.train_lr_sched initial_lr 1 epoch = initial_lr) := by
  refine ⟨fun _ => rfl, fun epoch => ?_⟩
  simp [Autoencoder.train_lr_sched, step_decay_schedule]

/-- Configuration object produced by a successful `Autoencoder.__init__`
(AE.py lines 35-62); `n_layers_encoder` and `n_layers_decoder` are the
derived layer counts of lines 59-60. -/
structure AutoencoderCfg where
  input_dim : List Nat
  encoder_conv_filters : List Nat
  encoder_conv_kernel_size : List Nat
  encoder_conv_strides : List Nat
  decoder_conv_t_filters : List Nat
  decoder_conv_t_kernel_size : List Nat
  decoder_conv_t_strides : List Nat
  z_dim : Nat
  use_batch_norm : Bool
  use_dropout : Bool
  n_layers_encoder : Nat
  n_layers_decoder : Nat
deriving Repr, DecidableEq

/-- `Autoencoder.__init__` (AE.py lines 35-62): raises `ValueError` (modelled
as `Except.error`) when the encoder triple or the decoder triple of
configuration lists disagree in length, before `_build` is reached;
otherwise records the config with the common layer counts. -/
def Autoencoder.init (input_dim ef ek es df dk ds : List Nat) (z : Nat)
    (bn dp : Bool) : Except String AutoencoderCfg :=
  if ¬(ef.length = ek.length ∧ ek.length = es.length) then
    Except.error "Encoder filter sizes, kernel sizes, and strides must have the same length."
  else if ¬(df.length = dk.length ∧ dk.length = ds.length) then
    Except.error "Decoder filter sizes, kernel sizes, and strides must have the same length."
  else
    Except.ok
      { input_dim := input_dim
        encoder_conv_filters := ef
        encoder_conv_kernel_size := ek
        encoder_conv_strides := es
        decoder_conv_t_filters := df
        decoder_conv_t_kernel_size := dk
        decoder_conv_t_strides := ds
        z_dim := z
        use_batch_norm := bn
        use_dropout := dp
        n_layers_encoder := ef.length
        n_layers_decoder := df.length }

/-- C9: construction succeeds exactly when both triples of configuration
lists have matching lengths; a `ValueError` is raised exactly otherwise, and
on success the layer counts equal the common lengths. -/
theorem autoencoder_init_spec (input_dim ef ek es df dk ds : List Nat) (z : Nat)
    (bn dp : Bool) :
    ((∃ cfg, Autoencoder.init input_dim ef ek es df dk ds z bn dp = Except.ok cfg) ↔
      ((ef.length = ek.length ∧ ek.length = es.length) ∧
       (df.length = dk.length ∧ dk.length = ds.length))) ∧
    ((∃ msg, Autoencoder.init input_dim ef ek es df dk ds z bn dp = Except.error msg) ↔
      ¬((ef.length = ek.length ∧ ek.length = es.length) ∧
        (df.length = dk.length ∧ dk.length = ds.length))) ∧
    (∀ cfg, Autoencoder.init input_dim ef ek es df dk ds z bn dp = Except.ok cfg →
      cfg.n_layers_encoder = ef.length ∧ cfg.n_layers_decoder = df.length) := by
  unfold Autoencoder.init
  split_ifs with h1 h2
  · refine ⟨?_, ?_, ?_⟩ <;> simp_all
  · refine ⟨?_, ?_, ?_⟩ <;> simp_all
  · refine ⟨by simp_all, by simp_all, ?_⟩
    intro cfg hcfg
    cases hcfg


/-- Witness for C9 at a concrete valid configuration. -/
theorem autoencoder_init_spec_witness :
    ((∃ cfg, Autoencoder.init [28, 28, 1] [32] [3] [1] [32] [3] [1] 2 false false
        = Except.ok cfg) ↔
      ((([32] : List Nat).length = ([3] : List Nat).length ∧
        ([3] : List Nat).length = ([1] : List Nat).length) ∧
       (([32] : List Nat).length = ([3] : List Nat).length ∧
        ([3] : List Nat).length = ([1] : List Nat).length))) ∧
    ((∃ msg, Autoencoder.init [28, 28, 1] [32] [3] [1] [32] [3] [1] 2 false false
        = Except.error msg) ↔
      ¬((([32] : List Nat).length = ([3] : List Nat).length ∧
         ([3] : List Nat).length = ([1] : List Nat).length) ∧
        (([32] : List Nat).length = ([3] : List Nat).length ∧
         ([3] : List Nat).length = ([1] : List Nat).length))) ∧
    (∀ cfg, Autoencoder.init [28, 28, 1] [32] [3] [1] [32] [3] [1] 2 false false
        = Except.ok cfg →
      cfg.n_layers_encoder = ([32] : List Nat).length ∧
      cfg.n_layers_decoder = ([32] : List Nat).length) :=
  autoencoder_init_spec [28, 28, 1] [32] [3] [1] [32] [3] [1] 2 false false

/-- One optimization event of `WGANGP.train`. -/
inductive TrainEvent where
  | criticStep
  | generatorStep
deriving Repr, DecidableEq

/-- The critic loop count of one epoch of `WGANGP.train` (lines 215-218):
`5` when `epoch % 100 == 0`, else the `n_critic` parameter. -/
def WGANGP.critic_loops (epoch n_critic : Nat) : Nat :=
  if epoch % 100 = 0 then 5 else n_critic

/-- The optimization events of one epoch of `WGANGP.train` (lines 220-223):
`critic_loops` calls to `train_critic`, then one call to `train_generator`. -/
def WGANGP.epochEvents (epoch n_critic : Nat) : List TrainEvent :=
  List.replicate (WGANGP.critic_loops epoch n_critic) TrainEvent.criticStep
    ++ [TrainEvent.generatorStep]

/-- The optimization-event trace of `WGANGP.train` (lines 213-236), run from
`self.epoch = startEpoch` for `epochs` epochs (`self.epoch` is `0` at
construction, line 60, and incremented once per epoch, line 236). -/
def WGANGP.trainTrace (startEpoch epochs n_critic : Nat) : List TrainEvent :=
  match epochs with
  | 0 => []
  | k + 1 =>
      WGANGP.epochEvents startEpoch n_critic ++ WGANGP.trainTrace (startEpoch + 1) k n_critic

/-- C2 counterexample: training one epoch from the initial `self.epoch = 0`
with `n_critic = 3` does not perform `n_critic` critic steps then one
generator step — the `epoch % 100 == 0` branch forces `5` critic steps. -/
theorem trainTrace_not_n_critic :
    WGANGP.trainTrace 0 1 3
      ≠ List.replicate 3 TrainEvent.criticStep ++ [TrainEvent.generatorStep] := by
  decide

/-- C2 (amended): in each epoch `e` of `WGANGP.train` the critic is optimized
`critic_loops e n_critic` times (`5` when `e % 100 == 0`, `n_critic`
otherwise) and then the generator exactly once, in that order. -/
theorem trainTrace_alternation (startEpoch epochs n_critic : Nat) :
    WGANGP.trainTrace startEpoch epochs n_critic
      = (List.range' startEpoch epochs).flatMap (fun e =>
          List.replicate (WGANGP.critic_loops e n_critic) TrainEvent.criticStep
            ++ [TrainEvent.generatorStep]) := by
  induction epochs generalizing startEpoch with
  | zero => rfl
  | succ k ih => simp [WGANGP.trainTrace, List.range', WGANGP.epochEvents, ih]

/-- `K.mean` of a 1-D tensor of reals. -/
noncomputable def WGANGP.kMeanR (l : List ℝ) : ℝ := l.sum / l.length

/-- The L2 norm of one sample's gradient vector (flattened over the
non-batch axes), as computed stepwise in WGANGP.py lines 69-71. -/
noncomputable def WGANGP.sample_l2_norm (g : List ℝ) : ℝ :=
  Real.sqrt ((g.map (fun x => x ^ 2)).sum)

/-- `WGANGP.gradient_penalty_loss` (lines 66-73): square the per-sample
gradients, sum over all non-batch axes, take the square root, square
`1 - norm`, and average over the batch.  The batch of gradients is a list
of flattened per-sample gradient vectors. -/
noncomputable def WGANGP.gradient_penalty_loss (gradients : List (List ℝ)) : ℝ :=
  let gradients_sqr := gradients.map (fun g => g.map (fun x => x ^ 2))
  let gradients_sqr_sum := gradients_sqr.map List.sum
  let gradient_l2_norm := gradients_sqr_sum.map Real.sqrt
  let gradient_penalty := gradient_l2_norm.map (fun m => (1 - m) ^ 2)
  WGANGP.kMeanR gradient_penalty

lemma kMeanR_nonneg (l : List ℝ) (h : ∀ x ∈ l, 0 ≤ x) : 0 ≤ WGANGP.kMeanR l :=
  div_nonneg (List.sum_nonneg h) (Nat.cast_nonneg _)

lemma list_sum_eq_zero_iff (l : List ℝ) (h : ∀ x ∈ l, 0 ≤ x) :
    l.sum = 0 ↔ ∀ x ∈ l, x = 0 := by
  constructor
  · intro hs x hx
    exact List.all_zero_of_le_zero_le_of_sum_eq_zero h hs hx
  · intro hz
    induction l with
    | nil => rfl
    | cons x xs ih =>
        simp only [List.sum_cons, hz x (by simp)]
        rw [zero_add]
        exact ih (fun y hy => h y (by simp [hy])) (fun y hy => hz y (by simp [hy]))

/-- C1: `gradient_penalty_loss` is the batch mean of the squared deviation
of each per-sample gradient L2 norm from `1`; it is nonnegative, and zero
exactly when every per-sample gradient L2 norm equals `1`. -/
theorem gradient_penalty_loss_spec (gradients : List (List ℝ))
    (h : 0 < gradients.length) :
    WGANGP.gradient_penalty_loss gradients
        = WGANGP.kMeanR (gradients.map (fun g => (1 - WGANGP.sample_l2_norm g) ^ 2)) ∧
    0 ≤ WGANGP.gradient_penalty_loss gradients ∧
    (WGANGP.gradient_penalty_loss gradients = 0 ↔
      ∀ g ∈ gradients, WGANGP.sample_l2_norm g = 1) := by
  have hrepr : WGANGP.gradient_penalty_loss gradients
      = WGANGP.kMeanR (gradients.map (fun g => (1 - WGANGP.sample_l2_norm g) ^ 2)) := by
    simp [WGANGP.gradient_penalty_loss, WGANGP.sample_l2_norm, List.map_map,
      Function.comp_def]
  have hnn : ∀ x ∈ gradients.map (fun g => (1 - WGANGP.sample_l2_norm g) ^ 2), 0 ≤ x := by
    intro x hx
    rcases List.mem_map.1 hx with ⟨g, hg, rfl⟩
    exact sq_nonneg _
  refine ⟨hrepr, ?_, ?_⟩
  · rw [hrepr]
    exact kMeanR_nonneg _ hnn
  · rw [hrepr]
    unfold WGANGP.kMeanR
    have hlen : (((gradients.map (fun g => (1 - WGANGP.sample_l2_norm g) ^ 2)).length : ℕ) : ℝ) ≠ 0 := by
      rw [List.length_map]
      exact Nat.cast_ne_zero.mpr (by omega)
    rw [div_eq_zero_iff]
    constructor
    · intro hd
      rcases hd with hs | hl
      · intro g hg
        have hz := (list_sum_eq_zero_iff _ hnn).1 hs _ (List.mem_map_of_mem _ hg)
        have h2 : 1 - WGANGP.sample_l2_norm g = 0 := (pow_eq_zero_iff (by norm_num)).1 hz
        linarith
      · exact absurd hl hlen
    · intro hall
      left
      apply (list_sum_eq_zero_iff _ hnn).2
      intro x hx
      rcases List.mem_map.1 hx with ⟨g, hg, rfl⟩
      rw [hall g hg]
      ring

/-- Witness for C1 at a singleton batch with unit-norm gradient. -/
theorem gradient_penalty_loss_spec_witness :
    0 < ([[(1 : ℝ)]] : List (List ℝ)).length ∧
    (WGANGP.gradient_penalty_loss [[(1 : ℝ)]]
        = WGANGP.kMeanR (([[(1 : ℝ)]] : List (List ℝ)).map
            (fun g => (1 - WGANGP.sample_l2_norm g) ^ 2)) ∧
     0 ≤ WGANGP.gradient_penalty_loss [[(1 : ℝ)]] ∧
     (WGANGP.gradient_penalty_loss [[(1 : ℝ)]] = 0 ↔
       ∀ g ∈ ([[(1 : ℝ)]] : List (List ℝ)), WGANGP.sample_l2_norm g = 1)) :=
  ⟨by simp, gradient_penalty_loss_spec [[(1 : ℝ)]] (by simp)⟩

/-- The broadcast interpolation of `RandomWeightedAverage.call`
(WGANGP.py line 21): `alpha` has shape `(batch_size, 1, 1, 1)`, so one
coefficient multiplies every element of a sample; a sample is its
flattened element list. -/
def RandomWeightedAverage.interpSample (alpha : ℚ) (r f : List ℚ) : List ℚ :=
  List.zipWith (fun x y => alpha * x + (1 - alpha) * y) r f

/-- `RandomWeightedAverage.call` (lines 19-21) on a batch: per-sample
coefficients `alphas` (drawn uniformly at run time), real batch
`inputs[0]`, fake batch `inputs[1]`. -/
def RandomWeightedAverage.call : List ℚ → List (List ℚ) → List (List ℚ) → List (List ℚ)
  | a :: as, r :: rs, f :: fs =>
      RandomWeightedAverage.interpSample a r f :: RandomWeightedAverage.call as rs fs
  | _, _, _ => []

lemma interpSample_one (r : List ℚ) : ∀ f : List ℚ, r.length = f.length →
    RandomWeightedAverage.interpSample 1 r f = r := by
  induction r with
  | nil => intro f h; rfl
  | cons x xs ih =>
      intro f h
      cases f with
      | nil => simp at h
      | cons y ys =>
          show ((1 : ℚ) * x + (1 - 1) * y) :: RandomWeightedAverage.interpSample 1 xs ys
              = x :: xs
          rw [ih ys (by simpa using h)]
          norm_num

lemma interpSample_zero (r : List ℚ) : ∀ f : List ℚ, r.length = f.length →
    RandomWeightedAverage.interpSample 0 r f = f := by
  induction r with
  | nil =>
      intro f h
      cases f with
      | nil => rfl
      | cons y ys => simp at h
  | cons x xs ih =>
      intro f h
      cases f with
      | nil => simp at h
      | cons y ys =>
          show ((0 : ℚ) * x + (1 - 0) * y) :: RandomWeightedAverage.interpSample 0 xs ys
              = y :: ys
          rw [ih ys (by simpa using h)]
          norm_num

lemma interpSample_getD (alpha : ℚ) (r : List ℚ) : ∀ (f : List ℚ) (j : Nat),
    j < r.length → j < f.length →
    (RandomWeightedAverage.interpSample alpha r f).getD j 0
      = alpha * r.getD j 0 + (1 - alpha) * f.getD j 0 := by
  induction r with
  | nil => intro f j hj _; simp at hj
  | cons x xs ih =>
      intro f j hj hjf
      cases f with
      | nil => simp at hjf
      | cons y ys =>
          cases j with
          | zero => rfl
          | succ k =>
              show (RandomWeightedAverage.interpSample alpha xs ys).getD k 0
                  = alpha * xs.getD k 0 + (1 - alpha) * ys.getD k 0
              exact ih ys k (by simpa using hj) (by simpa using hjf)

lemma convex_combination_bounds (alpha r f : ℚ) (h0 : 0 ≤ alpha) (h1 : alpha ≤ 1) :
    min r f ≤ alpha * r + (1 - alpha) * f ∧ alpha * r + (1 - alpha) * f ≤ max r f := by
  rcases le_total r f with h | h
  · rw [min_eq_left h, max_eq_right h]
    constructor <;> nlinarith
  · rw [min_eq_right h, max_eq_left h]
    constructor <;> nlinarith

lemma call_getD (alphas : List ℚ) : ∀ (real fake : List (List ℚ)) (i : Nat),
    i < alphas.length → i < real.length → i < fake.length →
    (RandomWeightedAverage.call alphas real fake).getD i []
      = RandomWeightedAverage.interpSample (alphas.getD i 0) (real.getD i []) (fake.getD i []) := by
  induction alphas with
  | nil => intro real fake i hi _ _; simp at hi
  | cons a as ih =>
      intro real fake i hi hir hif
      cases real with
      | nil => simp at hir
      | cons r rs =>
          cases fake with
          | nil => simp at hif
          | cons f fs =>
              cases i with
              | zero => rfl
              | succ k =>
                  show (RandomWeightedAverage.call as rs fs).getD k []
                      = RandomWeightedAverage.interpSample (as.getD k 0) (rs.getD k []) (fs.getD k [])
                  exact ih rs fs k (by simpa using hi) (by simpa using hir) (by simpa using hif)

lemma call_ones (alphas : List ℚ) : ∀ (real fake : List (List ℚ)),
    alphas.length = real.length → real.length = fake.length →
    real.map List.length = fake.map List.length →
    alphas = List.replicate alphas.length 1 →
    RandomWeightedAverage.call alphas real fake = real := by
  induction alphas with
  | nil =>
      intro real fake h1 _ _ _
      cases real with
      | nil => rfl
      | cons r rs => simp at h1
  | cons a as ih =>
      intro real fake h1 h2 hshape hrep
      cases real with
      | nil => simp at h1
      | cons r rs =>
          cases fake with
          | nil => simp at h2
          | cons f fs =>
              simp only [List.length_cons, List.replicate_succ, List.cons.injEq] at hrep
              simp only [List.map_cons, List.cons.injEq] at hshape
              show RandomWeightedAverage.interpSample a r f :: RandomWeightedAverage.call as rs fs
                  = r :: rs
              rw [hrep.1, interpSample_one r f hshape.1,
                ih rs fs (by simpa using h1) (by simpa using h2) hshape.2 hrep.2]

lemma call_zeros (alphas : List ℚ) : ∀ (real fake : List (List ℚ)),
    alphas.length = real.length → real.length = fake.length →
    real.map List.length = fake.map List.length →
    alphas = List.replicate alphas.length 0 →
    RandomWeightedAverage.call alphas real fake = fake := by
  induction alphas with
  | nil =>
      intro real fake h1 h2 _ _
      cases real with
      | nil =>
          cases fake with
          | nil => rfl
          | cons f fs => simp at h2
      | cons r rs => simp at h1
  | cons a as ih =>
      intro real fake h1 h2 hshape hrep
      cases real with
      | nil => simp at h1
      | cons r rs =>
          cases fake with
          | nil => simp at h2
          | cons f fs =>
              simp only [List.length_cons, List.replicate_succ, List.cons.injEq] at hrep
              simp only [List.map_cons, List.cons.injEq] at hshape
              show RandomWeightedAverage.interpSample a r f :: RandomWeightedAverage.call as rs fs
                  = f :: fs
              rw [hrep.1, interpSample_zero r f hshape.1,
                ih rs fs (by simpa using h1) (by simpa using h2) hshape.2 hrep.2]

lemma map_length_getD (real : List (List ℚ)) : ∀ (fake : List (List ℚ)) (i : Nat),
    i < real.length → real.map List.length = fake.map List.length →
    (real.getD i []).length = (fake.getD i []).length := by
  induction real with
  | nil => intro fake i hi _; simp at hi
  | cons r rs ih =>
      intro fake i hi hshape
      cases fake with
      | nil => simp at hshape
      | cons f fs =>
          simp only [List.map_cons, List.cons.injEq] at hshape
          cases i with
          | zero => simpa using hshape.1
          | succ k =>
              show (rs.getD k []).length = (fs.getD k []).length
              exact ih fs k (by simpa using hi) hshape.2

/-- C5: `RandomWeightedAverage.call` forms the per-sample convex combination
`alpha * real + (1 - alpha) * fake`; with coefficients in `[0, 1]` every
output element lies between the corresponding real and fake elements, and
all-ones (resp. all-zeros) coefficients return the real (resp. fake) batch. -/
theorem random_weighted_average_spec (alphas : List ℚ) (real fake : List (List ℚ))
    (hlen1 : alphas.length = real.length) (hlen2 : real.length = fake.length)
    (hshape : real.map List.length = fake.map List.length)
    (halpha : ∀ a ∈ alphas, 0 ≤ a ∧ a ≤ 1) :
    (∀ i, i < alphas.length →
        (RandomWeightedAverage.call alphas real fake).getD i []
          = RandomWeightedAverage.interpSample (alphas.getD i 0)
              (real.getD i []) (fake.getD i [])) ∧
    (∀ i j, i < alphas.length → j < (real.getD i []).length →
        min ((real.getD i []).getD j 0) ((fake.getD i []).getD j 0)
            ≤ ((RandomWeightedAverage.call alphas real fake).getD i []).getD j 0 ∧
        ((RandomWeightedAverage.call alphas real fake).getD i []).getD j 0
            ≤ max ((real.getD i []).getD j 0) ((fake.getD i []).getD j 0)) ∧
    (alphas = List.replicate alphas.length 1 →
        RandomWeightedAverage.call alphas real fake = real) ∧
    (alphas = List.replicate alphas.length 0 →
        RandomWeightedAverage.call alphas real fake = fake) := by
  refine ⟨?_, ?_, call_ones alphas real fake hlen1 hlen2 hshape,
    call_zeros alphas real fake hlen1 hlen2 hshape⟩
  · intro i hi
    exact call_getD alphas real fake i hi (hlen1 ▸ hi) (hlen2 ▸ hlen1 ▸ hi)
  · intro i j hi hj
    have hir : i < real.length := hlen1 ▸ hi
    have hif : i < fake.length := hlen2 ▸ hir
    have hsl : (real.getD i []).length = (fake.getD i []).length :=
      map_length_getD real fake i hir hshape
    have hji : j < (fake.getD i []).length := hsl ▸ hj
    rw [call_getD alphas real fake i hi hir hif,
      interpSample_getD (alphas.getD i 0) (real.getD i []) (fake.getD i []) j hj hji]
    have hmem : alphas.getD i 0 ∈ alphas := by
      rw [List.getD_eq_getElem alphas 0 hi]
      exact List.getElem_mem hi
    exact convex_combination_bounds (alphas.getD i 0) _ _ (halpha _ hmem).1 (halpha _ hmem).2

/-- Witness for C5 at a concrete batch with coefficient `1/2`. -/
theorem random_weighted_average_spec_witness :
    (([(1/2 : ℚ)] : List ℚ).length = ([[(0 : ℚ), 2]] : List (List ℚ)).length) ∧
    (([[(0 : ℚ), 2]] : List (List ℚ)).length = ([[(2 : ℚ), 0]] : List (List ℚ)).length) ∧
    (([[(0 : ℚ), 2]] : List (List ℚ)).map List.length
        = ([[(2 : ℚ), 0]] : List (List ℚ)).map List.length) ∧
    (∀ a ∈ ([(1/2 : ℚ)] : List ℚ), 0 ≤ a ∧ a ≤ 1) ∧
    ((∀ i, i < ([(1/2 : ℚ)] : List ℚ).length →
        (RandomWeightedAverage.call [(1/2 : ℚ)] [[(0 : ℚ), 2]] [[(2 : ℚ), 0]]).getD i []
          = RandomWeightedAverage.interpSample (([(1/2 : ℚ)] : List ℚ).getD i 0)
              (([[(0 : ℚ), 2]] : List (List ℚ)).getD i [])
              (([[(2 : ℚ), 0]] : List (List ℚ)).getD i [])) ∧
     (∀ i j, i < ([(1/2 : ℚ)] : List ℚ).length →
        j < (([[(0 : ℚ), 2]] : List (List ℚ)).getD i []).length →
        min ((([[(0 : ℚ), 2]] : List (List ℚ)).getD i []).getD j 0)
            ((([[(2 : ℚ), 0]] : List (List ℚ)).getD i []).getD j 0)
            ≤ ((RandomWeightedAverage.call [(1/2 : ℚ)] [[(0 : ℚ), 2]] [[(2 : ℚ), 0]]).getD i []).getD j 0 ∧
        ((RandomWeightedAverage.call [(1/2 : ℚ)] [[(0 : ℚ), 2]] [[(2 : ℚ), 0]]).getD i []).getD j 0
            ≤ max ((([[(0 : ℚ), 2]] : List (List ℚ)).getD i []).getD j 0)
                ((([[(2 : ℚ), 0]] : List (List ℚ)).getD i []).getD j 0)) ∧
     (([(1/2 : ℚ)] : List ℚ) = List.replicate ([(1/2 : ℚ)] : List ℚ).length 1 →
        RandomWeightedAverage.call [(1/2 : ℚ)] [[(0 : ℚ), 2]] [[(2 : ℚ), 0]] = [[(0 : ℚ), 2]]) ∧
     (([(1/2 : ℚ)] : List ℚ) = List.replicate ([(1/2 : ℚ)] : List ℚ).length 0 →
        RandomWeightedAverage.call [(1/2 : ℚ)] [[(0 : ℚ), 2]] [[(2 : ℚ), 0]] = [[(2 : ℚ), 0]])) :=
  ⟨rfl, rfl, rfl,
   by
     intro a ha
     rw [List.mem_singleton] at ha
     subst ha
     norm_num,
   random_weighted_average_spec [(1/2 : ℚ)] [[(0 : ℚ), 2]] [[(2 : ℚ), 0]] rfl rfl rfl
     (by
       intro a ha
       rw [List.mem_singleton] at ha
       subst ha
       norm_num)⟩

/-- A 3-D image sample (height × width × channels) of rationals. -/
abbrev Sample := List (List (List ℚ))

/-- Sum of all elements of a sample (reduction over axes 1, 2, 3). -/
def sampleSum (s : Sample) : ℚ := (s.map (fun m => (m.map List.sum).sum)).sum

/-- Number of elements of a sample (product of the axis-1,2,3 extents for a
rectangular tensor). -/
def sampleCount (s : Sample) : Nat := (s.map (fun m => (m.map List.length).sum)).sum

/-- The shape of a sample: row lengths per matrix. -/
def sampleShape (s : Sample) : List (List Nat) := s.map (fun m => m.map List.length)

/-- Elementwise unary map over a sample (e.g. `tf.square`). -/
def sampleMap1 (q : ℚ → ℚ) (s : Sample) : Sample :=
  s.map (fun m => m.map (fun r => r.map q))

/-- Elementwise binary operation of two equally-shaped samples
(e.g. `y_true - y_pred`). -/
def sampleMap2 (g : ℚ → ℚ → ℚ) (t p : Sample) : Sample :=
  List.zipWith (List.zipWith (List.zipWith g)) t p

/-- `tf.reduce_mean(·, axis=[1, 2, 3])` on one sample. -/
def sampleMean (s : Sample) : ℚ := sampleSum s / sampleCount s

/-- `r_loss` compiled by `Autoencoder.compile` (AE.py lines 136-137):
`tf.reduce_mean(tf.square(y_true - y_pred), axis=[1, 2, 3])`, one value per
sample of the batch. -/
def Autoencoder.r_loss (y_true y_pred : List Sample) : List ℚ :=
  List.zipWith (fun t p => sampleMean (sampleMap1 (fun x => x ^ 2) (sampleMap2 (· - ·) t p)))
    y_true y_pred

/-- Modelled from the spec: the per-sample mean over the height, width and
channel axes of the squared elementwise difference (mean-squared
reconstruction loss), stated directly in the spec's words. -/
def specSampleMSE (t p : Sample) : ℚ :=
  sampleSum (sampleMap2 (fun a b => (a - b) ^ 2) t p) / sampleCount t

/-- The argument record of the `self.model.fit` call. -/
structure FitCall where
  input : List Sample
  target : List Sample
  batch_size : Nat
  shuffle : Bool
  epochs : Nat
  initial_epoch : Nat
deriving Repr, DecidableEq

/-- The `self.model.fit` invocation of `Autoencoder.train` (AE.py lines
186-194): `x_train` is passed as both the input and the target. -/
def Autoencoder.train_fit_call (x_train : List Sample)
    (batch_size epochs initial_epoch : Nat) : FitCall :=
  { input := x_train
    target := x_train
    batch_size := batch_size
    shuffle := true
    epochs := epochs
    initial_epoch := initial_epoch }

lemma sampleMap1_map2 (q : ℚ → ℚ) (g : ℚ → ℚ → ℚ) (t p : Sample) :
    sampleMap1 q (sampleMap2 g t p) = sampleMap2 (fun a b => q (g a b)) t p := by
  simp [sampleMap1, sampleMap2, List.map_zipWith]

lemma row_length_zipWith (g : ℚ → ℚ → ℚ) (r1 : List ℚ) : ∀ r2 : List ℚ,
    r1.length = r2.length → (List.zipWith g r1 r2).length = r1.length := by
  intro r2 h
  rw [List.length_zipWith, h, Nat.min_self]

lemma matrix_count_zipWith (g : ℚ → ℚ → ℚ) (m1 : List (List ℚ)) :
    ∀ m2 : List (List ℚ), m1.map List.length = m2.map List.length →
    ((List.zipWith (List.zipWith g) m1 m2).map List.length).sum
      = (m1.map List.length).sum := by
  induction m1 with
  | nil => intro m2 _; rfl
  | cons r rs ih =>
      intro m2 h
      cases m2 with
      | nil => simp at h
      | cons r2 ms =>
          simp only [List.map_cons, List.cons.injEq] at h
          show ((List.zipWith g r r2).length :: (List.zipWith (List.zipWith g) rs ms).map List.length).sum
              = (r.length :: rs.map List.length).sum
          rw [List.sum_cons, List.sum_cons, row_length_zipWith g r r2 h.1, ih ms h.2]

lemma sampleCount_map2 (g : ℚ → ℚ → ℚ) (t : Sample) : ∀ p : Sample,
    sampleShape t = sampleShape p → sampleCount (sampleMap2 g t p) = sampleCount t := by
  induction t with
  | nil => intro p _; rfl
  | cons m ms ih =>
      intro p h
      cases p with
      | nil => simp [sampleShape] at h
      | cons m2 ps =>
          simp only [sampleShape, List.map_cons, List.cons.injEq] at h
          show (((List.zipWith (List.zipWith g) m m2).map List.length).sum
              :: (sampleMap2 g ms ps).map (fun mm => (mm.map List.length).sum)).sum
            = ((m.map List.length).sum :: ms.map (fun mm => (mm.map List.length).sum)).sum
          rw [List.sum_cons, List.sum_cons, matrix_count_zipWith g m m2 h.1]
          have h2 := ih ps h.2
          simp only [sampleCount] at h2
          omega

lemma r_loss_eq_specMSE (y_true : List Sample) : ∀ y_pred : List Sample,
    y_true.map sampleShape = y_pred.map sampleShape →
    Autoencoder.r_loss y_true y_pred = List.zipWith specSampleMSE y_true y_pred := by
  induction y_true with
  | nil => intro p _; rfl
  | cons t ts ih =>
      intro yp hshape
      cases yp with
      | nil => simp at hshape
      | cons p ps =>
          simp only [List.map_cons, List.cons.injEq] at hshape
          show sampleMean (sampleMap1 (fun x => x ^ 2) (sampleMap2 (· - ·) t p))
                :: Autoencoder.r_loss ts ps
              = specSampleMSE t p :: List.zipWith specSampleMSE ts ps
          rw [ih ps hshape.2]
          congr 1
          rw [sampleMean, sampleMap1_map2, sampleCount_map2 _ t p hshape.1]
          rfl

/-- C3: `Autoencoder.train` fits the full model with `x_train` as both input
and target, and the compiled loss `r_loss` equals, per sample, the mean over
the height, width and channel axes of the squared elementwise difference. -/
theorem autoencoder_train_reconstruction_spec (x_train : List Sample)
    (batch_size epochs initial_epoch : Nat) (y_true y_pred : List Sample)
    (hshape : y_true.map sampleShape = y_pred.map sampleShape) :
    ((Autoencoder.train_fit_call x_train batch_size epochs initial_epoch).input = x_train ∧
     (Autoencoder.train_fit_call x_train batch_size epochs initial_epoch).target = x_train) ∧
    Autoencoder.r_loss y_true y_pred = List.zipWith specSampleMSE y_true y_pred :=
  ⟨⟨rfl, rfl⟩, r_loss_eq_specMSE y_true y_pred hshape⟩

/-- Witness for C3 at a concrete one-sample batch. -/
theorem autoencoder_train_reconstruction_spec_witness :
    (([[[[(1 : ℚ), 2]]]] : List Sample).map sampleShape
        = ([[[[(0 : ℚ), 0]]]] : List Sample).map sampleShape) ∧
    (((Autoencoder.train_fit_call [[[[(5 : ℚ)]]]] 32 10 0).input = [[[[(5 : ℚ)]]]] ∧
      (Autoencoder.train_fit_call [[[[(5 : ℚ)]]]] 32 10 0).target = [[[[(5 : ℚ)]]]]) ∧
     Autoencoder.r_loss [[[[(1 : ℚ), 2]]]] [[[[(0 : ℚ), 0]]]]
        = List.zipWith specSampleMSE [[[[(1 : ℚ), 2]]]] [[[[(0 : ℚ), 0]]]]) :=
  ⟨rfl, autoencoder_train_reconstruction_spec [[[[(5 : ℚ)]]]] 32 10 0
    [[[[(1 : ℚ), 2]]]] [[[[(0 : ℚ), 0]]]] rfl⟩

/-- Symbolic layer descriptors for the `Autoencoder` graphs of `AE.py`. -/
inductive AELayer where
  | conv (i : Nat)
  | leakyRelu
  | batchNorm
  | dropout
  | flatten
  | dense (units : Nat)
  | reshape
  | convT (i : Nat)
  | sigmoid
deriving Repr, DecidableEq

/-- Symbolic layer descriptors for the `WGANGP` generator of `WGANGP.py`. -/
inductive GenLayer where
  | dense (units : Nat)
  | batchNorm
  | act (a : String)
  | reshape
  | dropout
  | upSampling
  | conv (i : Nat)
  | convT (i : Nat)
  | tanhAct
deriving Repr, DecidableEq

/-- The Keras `sigmoid` activation applied by the decoder's last layer. -/
noncomputable def sigmoidFn (x : ℝ) : ℝ := 1 / (1 + Real.exp (-x))

lemma sigmoidFn_bounds (x : ℝ) : 0 ≤ sigmoidFn x ∧ sigmoidFn x ≤ 1 := by
  have he : 0 < Real.exp (-x) := Real.exp_pos (-x)
  have hd : 0 < 1 + Real.exp (-x) := by linarith
  unfold sigmoidFn
  constructor
  · exact div_nonneg zero_le_one hd.le
  · rw [div_le_one hd]
    linarith

lemma tanh_bounds (x : ℝ) : -1 < Real.tanh x ∧ Real.tanh x < 1 := by
  have hc := Real.cosh_pos x
  have h1 := Real.cosh_sub_sinh x
  have h2 := Real.cosh_add_sinh x
  have he1 := Real.exp_pos (-x)
  have he2 := Real.exp_pos x
  rw [Real.tanh_eq_sinh_div_cosh]
  constructor
  · rw [lt_div_iff₀ hc]
    nlinarith
  · rw [div_lt_one hc]
    nlinarith

/-- The layer stack of the decoder loop body for index `i`
(AE.py lines 98-118): `Conv2DTranspose`, then `LeakyReLU` with optional
batch-norm and dropout for all but the last index, else `sigmoid`. -/
def Autoencoder.decoderBlock (n : Nat) (use_batch_norm use_dropout : Bool) (i : Nat) :
    List AELayer :=
  [AELayer.convT i] ++
  (if i < n - 1 then
    [AELayer.leakyRelu] ++
    (if use_batch_norm then [AELayer.batchNorm] else []) ++
    (if use_dropout then [AELayer.dropout] else [])
  else [AELayer.sigmoid])

/-- The decoder of `Autoencoder._build` (AE.py lines 93-121): dense layer of
`du = prod(shape_before_flattening)` units, reshape, then the
`n = n_layers_decoder` loop blocks. -/
def Autoencoder.decoderLayers (du n : Nat) (use_batch_norm use_dropout : Bool) :
    List AELayer :=
  [AELayer.dense du, AELayer.reshape] ++
  (List.range n).flatMap (Autoencoder.decoderBlock n use_batch_norm use_dropout)

/-- C6: in the decoder the final transposed convolution is followed by the
`sigmoid` activation ending the stack (and sigmoid maps into `[0, 1]`),
while every earlier transposed convolution is followed by `LeakyReLU` and
never by sigmoid. -/
theorem decoder_sigmoid_spec (du n : Nat) (bn dp : Bool) (h : 1 ≤ n) :
    Autoencoder.decoderBlock n bn dp (n - 1) = [AELayer.convT (n - 1), AELayer.sigmoid] ∧
    (∀ i, i < n - 1 →
        (Autoencoder.decoderBlock n bn dp i).take 2 = [AELayer.convT i, AELayer.leakyRelu] ∧
        AELayer.sigmoid ∉ Autoencoder.decoderBlock n bn dp i) ∧
    (∃ pre, Autoencoder.decoderLayers du n bn dp
        = pre ++ [AELayer.convT (n - 1), AELayer.sigmoid]) ∧
    (∀ x : ℝ, 0 ≤ sigmoidFn x ∧ sigmoidFn x ≤ 1) := by
  have hlast : Autoencoder.decoderBlock n bn dp (n - 1)
      = [AELayer.convT (n - 1), AELayer.sigmoid] := by
    unfold Autoencoder.decoderBlock
    rw [if_neg (show ¬(n - 1 < n - 1) by omega)]
    rfl
  refine ⟨hlast, ?_, ?_, sigmoidFn_bounds⟩
  · intro i hi
    unfold Autoencoder.decoderBlock
    rw [if_pos hi]
    constructor
    · rfl
    · split_ifs <;> simp
  · obtain ⟨m, rfl⟩ : ∃ m, n = m + 1 := ⟨n - 1, by omega⟩
    refine ⟨[AELayer.dense du, AELayer.reshape] ++
      (List.range m).flatMap (Autoencoder.decoderBlock (m + 1) bn dp), ?_⟩
    unfold Autoencoder.decoderLayers
    rw [List.range_succ, List.flatMap_append]
    have hm : (m + 1) - 1 = m := by omega
    rw [hm] at hlast
    simp [hlast, List.append_assoc]

/-- Witness for C6 at `n = 2` with batch-norm and dropout enabled. -/
theorem decoder_sigmoid_spec_witness :
    1 ≤ 2 ∧
    (Autoencoder.decoderBlock 2 true true (2 - 1)
        = [AELayer.convT (2 - 1), AELayer.sigmoid] ∧
     (∀ i, i < 2 - 1 →
        (Autoencoder.decoderBlock 2 true true i).take 2
            = [AELayer.convT i, AELayer.leakyRelu] ∧
        AELayer.sigmoid ∉ Autoencoder.decoderBlock 2 true true i) ∧
     (∃ pre, Autoencoder.decoderLayers 3136 2 true true
        = pre ++ [AELayer.convT (2 - 1), AELayer.sigmoid]) ∧
     (∀ x : ℝ, 0 ≤ sigmoidFn x ∧ sigmoidFn x ≤ 1)) :=
  ⟨by omega, decoder_sigmoid_spec 3136 2 true true (by omega)⟩

/-- The layer stack of the generator loop body for index `i`
(WGANGP.py lines 120-142): an `UpSampling2D` + `Conv2D` pair when
`generator_upsample[i] == 2`, else a `Conv2DTranspose`; then optional
batch-norm and the configured activation for all but the last index, else
`tanh`. -/
def WGANGP.generatorBlock (n : Nat) (upsample : List Nat) (bn : Bool)
    (activation : String) (i : Nat) : List GenLayer :=
  (if upsample.getD i 0 = 2 then [GenLayer.upSampling, GenLayer.conv i]
   else [GenLayer.convT i]) ++
  (if i < n - 1 then
    (if bn then [GenLayer.batchNorm] else []) ++ [GenLayer.act activation]
  else [GenLayer.tanhAct])

/-- The generator of `WGANGP._build_generator` (WGANGP.py lines 106-145):
dense layer of `du = prod(generator_initial_dense_layer_size)` units,
optional batch-norm, the configured activation, reshape, optional dropout,
then the `n = n_layers_generator` loop blocks. -/
def WGANGP.generatorLayers (du n : Nat) (upsample : List Nat) (bn dp : Bool)
    (activation : String) : List GenLayer :=
  [GenLayer.dense du] ++
  (if bn then [GenLayer.batchNorm] else []) ++
  [GenLayer.act activation, GenLayer.reshape] ++
  (if dp then [GenLayer.dropout] else []) ++
  (List.range n).flatMap (WGANGP.generatorBlock n upsample bn activation)

/-- C7: the generator's final loop layer is followed by `tanh` ending the
stack (and tanh maps into `(-1, 1)`); every earlier loop index ends in the
configured activation and never in tanh; index `i` uses
`UpSampling2D`+`Conv2D` exactly when `generator_upsample[i] == 2`, else a
`Conv2DTranspose`. -/
theorem generator_tanh_spec (du n : Nat) (upsample : List Nat) (bn dp : Bool)
    (activation : String) (h : 1 ≤ n) :
    (∃ pre, WGANGP.generatorLayers du n upsample bn dp activation
        = pre ++ [GenLayer.tanhAct]) ∧
    (∀ i, i < n - 1 →
        (∃ pre, WGANGP.generatorBlock n upsample bn activation i
            = pre ++ [GenLayer.act activation]) ∧
        GenLayer.tanhAct ∉ WGANGP.generatorBlock n upsample bn activation i) ∧
    (∀ i, i < n →
        (upsample.getD i 0 = 2 →
          ∃ rest, WGANGP.generatorBlock n upsample bn activation i
              = GenLayer.upSampling :: GenLayer.conv i :: rest) ∧
        (upsample.getD i 0 ≠ 2 →
          ∃ rest, WGANGP.generatorBlock n upsample bn activation i
              = GenLayer.convT i :: rest)) ∧
    (∀ x : ℝ, -1 < Real.tanh x ∧ Real.tanh x < 1) := by
  refine ⟨?_, ?_, ?_, tanh_bounds⟩
  · obtain ⟨m, rfl⟩ : ∃ m, n = m + 1 := ⟨n - 1, by omega⟩
    have hb : WGANGP.generatorBlock (m + 1) upsample bn activation m
        = (if upsample.getD m 0 = 2 then [GenLayer.upSampling, GenLayer.conv m]
           else [GenLayer.convT m]) ++ [GenLayer.tanhAct] := by
      unfold WGANGP.generatorBlock
      rw [if_neg (show ¬(m < m + 1 - 1) by omega)]
    refine ⟨[GenLayer.dense du] ++
      (if bn then [GenLayer.batchNorm] else []) ++
      [GenLayer.act activation, GenLayer.reshape] ++
      (if dp then [GenLayer.dropout] else []) ++
      ((List.range m).flatMap (WGANGP.generatorBlock (m + 1) upsample bn activation) ++
       (if upsample.getD m 0 = 2 then [GenLayer.upSampling, GenLayer.conv m]
        else [GenLayer.convT m])), ?_⟩
    unfold WGANGP.generatorLayers
    rw [List.range_succ, List.flatMap_append]
    simp [hb, List.append_assoc]
  · intro i hi
    unfold WGANGP.generatorBlock
    rw [if_pos hi]
    constructor
    · exact ⟨(if upsample.getD i 0 = 2 then [GenLayer.upSampling, GenLayer.conv i]
        else [GenLayer.convT i]) ++ (if bn then [GenLayer.batchNorm] else []),
        by simp [List.append_assoc]⟩
    · split_ifs <;> simp
  · intro i _
    constructor
    · intro hup
      refine ⟨(if i < n - 1 then
          (if bn then [GenLayer.batchNorm] else []) ++ [GenLayer.act activation]
        else [GenLayer.tanhAct]), ?_⟩
      unfold WGANGP.generatorBlock
      rw [if_pos hup]
      rfl
    · intro hup
      refine ⟨(if i < n - 1 then
          (if bn then [GenLayer.batchNorm] else []) ++ [GenLayer.act activation]
        else [GenLayer.tanhAct]), ?_⟩
      unfold WGANGP.generatorBlock
      rw [if_neg hup]
      rfl

/-- Witness for C7 at `n = 2`, `upsample = [2, 1]`. -/
theorem generator_tanh_spec_witness :
    1 ≤ 2 ∧
    ((∃ pre, WGANGP.generatorLayers 3136 2 [2, 1] true true "relu"
        = pre ++ [GenLayer.tanhAct]) ∧
     (∀ i, i < 2 - 1 →
        (∃ pre, WGANGP.generatorBlock 2 [2, 1] true "relu" i
            = pre ++ [GenLayer.act "relu"]) ∧
        GenLayer.tanhAct ∉ WGANGP.generatorBlock 2 [2, 1] true "relu" i) ∧
     (∀ i, i < 2 →
        (([2, 1] : List Nat).getD i 0 = 2 →
          ∃ rest, WGANGP.generatorBlock 2 [2, 1] true "relu" i
              = GenLayer.upSampling :: GenLayer.conv i :: rest) ∧
        (([2, 1] : List Nat).getD i 0 ≠ 2 →
          ∃ rest, WGANGP.generatorBlock 2 [2, 1] true "relu" i
              = GenLayer.convT i :: rest)) ∧
     (∀ x : ℝ, -1 < Real.tanh x ∧ Real.tanh x < 1)) :=
  ⟨by omega, generator_tanh_spec 3136 2 [2, 1] true true "relu" (by omega)⟩

/-- The encoder of `Autoencoder._build` (AE.py lines 64-91): the loop
blocks, then `Flatten`, then the `Dense(z_dim)` bottleneck output layer. -/
def Autoencoder.encoderLayers (z n : Nat) (use_batch_norm use_dropout : Bool) :
    List AELayer :=
  (List.range n).flatMap (fun i =>
    [AELayer.conv i, AELayer.leakyRelu] ++
    (if use_batch_norm then [AELayer.batchNorm] else []) ++
    (if use_dropout then [AELayer.dropout] else [])) ++
  [AELayer.flatten, AELayer.dense z]

/-- The decoder input `Input(shape=(self.z_dim,))` (AE.py line 94). -/
def Autoencoder.decoder_input_shape (z : Nat) : List Nat := [z]

/-- The generator input `Input(shape=(self.z_dim,))` (WGANGP.py line 107). -/
def WGANGP.generator_input_shape (z : Nat) : List Nat := [z]

/-- C8: the encoder's final dense layer has exactly `z_dim` units, and both
the autoencoder decoder's input shape and the WGANGP generator's input shape
are `(z_dim,)`, all for the `z_dim` passed to the constructor. -/
theorem z_dim_consistency_spec (z n : Nat) (bn dp : Bool) :
    (∃ pre, Autoencoder.encoderLayers z n bn dp = pre ++ [AELayer.dense z]) ∧
    Autoencoder.decoder_input_shape z = [z] ∧
    WGANGP.generator_input_shape z = [z] := by
  refine ⟨?_, rfl, rfl⟩
  refine ⟨(List.range n).flatMap (fun i =>
    [AELayer.conv i, AELayer.leakyRelu] ++
    (if bn then [AELayer.batchNorm] else []) ++
    (if dp then [AELayer.dropout] else [])) ++ [AELayer.flatten], ?_⟩
  simp [Autoencoder.encoderLayers, List.append_assoc]
